import Mathlib

/-!
Shallow embedding of the resilient ETL pipeline of the `ETL` repository
(`urban_airq_api/scripts/{extract,transform,load,run_pipeline}.py` and
`etlex/scripts/validate.py`), together with theorems settling the claims
about its specification.

Conventions of the embedding:
* Python floats are modelled as exact rationals (`ℚ`); the float `NaN`
  (pandas' missing-value marker in numeric columns) is a separate
  constructor of the cell type, so that NaN propagation through
  arithmetic is explicit.
* Python `None` is a separate constructor (`cnull`).
* Fallible calls (HTTP requests, the Supabase sink, file reads) are
  modelled by oracles supplying an `Except`/`Option` outcome per call,
  mirroring which exceptions the source catches and which propagate.
* Timestamps are modelled as minutes since an epoch (`Nat`); the ISO
  rendering used by `isoformat` is modelled by the canonical numeral
  rendering of that counter.
-/

namespace ETL

/-! ## Python `str.lower` (ASCII fragment, as used on column names / record keys) -/

/-- ASCII lowercasing of one character, the fragment of Python `str.lower`
exercised by the repository's column names and record keys. -/
def lowerChar (c : Char) : Char :=
  if 65 ≤ c.toNat ∧ c.toNat ≤ 90 then Char.ofNat (c.toNat + 32) else c

/-- Python `str.lower` on a whole string. -/
def lowerStr (s : String) : String :=
  String.mk (s.data.map lowerChar)

/-! ## Cell values

A `Cell` models one Python value as it occurs in a pandas DataFrame cell or
in a record dictionary handed to the Supabase client.  Numpy scalar types
(which `_normalize_record_types` converts) are distinguished from native
Python values. -/

/-- One Python value in a DataFrame cell or a record dictionary.  `cnan`
is the float NaN (pandas' missing marker, whether numpy or native);
`cnull` is Python `None`.  `npDT` is a `np.datetime64`/`pd.Timestamp`
carrying its epoch-minute counter. -/
inductive Cell where
  | cnull
  | cnan
  | npInt (n : Int)
  | npFloat (q : ℚ)
  | npBool (b : Bool)
  | npDT (t : Nat)
  | pyInt (n : Int)
  | pyFloat (q : ℚ)
  | pyBool (b : Bool)
  | pyStr (s : String)
  deriving DecidableEq, Repr

/-- ISO rendering of a model timestamp (`pd.Timestamp.isoformat`), modelled
by the canonical numeral rendering of the epoch-minute counter. -/
def dtIso (t : Nat) : String := toString t

/-- A record dictionary: insertion-ordered key/value pairs. -/
abbrev Rec : Type := List (String × Cell)

/-- Python dict assignment `d[k] = v`: overwrite in place if the key is
present (keeping its original position), else append. -/
def dictInsert (k : String) (v : Cell) : Rec → Rec
  | [] => [(k, v)]
  | (k₁, v₁) :: rest =>
    if k₁ = k then (k₁, v) :: rest else (k₁, v₁) :: dictInsert k v rest

/-- Value conversion of `_normalize_record_types` (load.py:141-163): numpy
scalars become native Python values, numpy floats with integral value
become ints, `np.datetime64` becomes its ISO string; everything else is
returned unchanged. -/
def normalizeValue : Cell → Cell
  | .cnull => .cnull
  | .npInt n => .pyInt n
  | .npFloat q => if q.den = 1 then .pyInt q.num else .pyFloat q
  | .npBool b => .pyBool b
  | .npDT t => .pyStr (dtIso t)
  | v => v

/-- One record of `_normalize_record_types` (load.py:137-164): build a fresh
dict with lower-cased keys and normalized values. -/
def normalizeRecord (r : Rec) : Rec :=
  r.foldl (fun acc kv => dictInsert (lowerStr kv.1) (normalizeValue kv.2) acc) []

/-- `_normalize_record_types` (load.py:132-165). -/
def normalizeRecordTypes (rs : List Rec) : List Rec :=
  rs.map normalizeRecord

/-! ## transform.py

Raw payloads (transform.py reads them back from `data/raw/*.json`).
Measurement values are JSON numbers or nulls, modelled as `Option ℚ`;
the `pd.to_numeric(..., errors="coerce")` coercion of `add_features` is
the identity on such cells.  Timestamps are modelled already parsed
(epoch minutes); `pd.to_datetime` string parsing is the external pandas
capability. -/

/-- One entry of a station's `measurements` list in an OpenAQ v3 payload. -/
structure Meas where
  parameter : String
  value : Option ℚ
  lastUpdated : Option Nat
  dateUtc : Option Nat
  deriving DecidableEq, Repr

/-- One entry of `payload["results"]`; the `measurements` key may be absent. -/
structure Station where
  measurements : Option (List Meas)
  deriving DecidableEq, Repr

/-- The `hourly` block of an Open-Meteo payload: parallel arrays, one entry
per hour (the source builds a DataFrame from them, so they have equal
length in any well-formed payload). -/
structure Hourly where
  time : List (Option Nat)
  pm10 : List (Option ℚ)
  pm2_5 : List (Option ℚ)
  carbon_monoxide : List (Option ℚ)
  nitrogen_dioxide : List (Option ℚ)
  sulphur_dioxide : List (Option ℚ)
  ozone : List (Option ℚ)
  deriving DecidableEq, Repr

/-- A raw JSON payload; `results`/`hourly` are `some` when the key is
present (`some []` models a present but empty list). -/
structure PayloadJson where
  results : Option (List Station)
  hourly : Option Hourly
  deriving DecidableEq, Repr

/-- The timestamp of one measurement:
`m.get("lastUpdated") or m.get("date", \x7b\x7d).get("utc")` (transform.py:56). -/
def measTime (m : Meas) : Option Nat :=
  m.lastUpdated.orElse fun _ => m.dateUtc

/-- Stations lacking the `measurements` key are skipped (transform.py:50-51). -/
def stationMeas (st : Station) : List Meas :=
  st.measurements.getD []

/-- All measurements of a payload, in station order then measurement order. -/
def allMeas (stations : List Station) : List Meas :=
  stations.flatMap stationMeas

/-- A canonical (wide-format) row after flattening. -/
structure AirRow where
  city : String
  time : Option Nat
  pm10 : Option ℚ
  pm2_5 : Option ℚ
  carbon_monoxide : Option ℚ
  nitrogen_dioxide : Option ℚ
  sulphur_dioxide : Option ℚ
  ozone : Option ℚ
  deriving DecidableEq, Repr

/-- First non-null value of parameter `p` in the `(city, t)` pivot group
(`pivot_table(index=["city","time"], aggfunc="first")`, transform.py:66-69). -/
def firstParamVal (ms : List Meas) (t : Nat) (p : String) : Option ℚ :=
  ((ms.filter fun m =>
      (measTime m == some t) && (m.parameter == p) && m.value.isSome).head?).bind Meas.value

/-- The distinct non-null timestamps of the measurement list, ascending
(`pivot_table` groups by the index keys in sorted order and drops null
keys). -/
def sortedTimes (ms : List Meas) : List Nat :=
  ((ms.filterMap measTime).dedup).mergeSort (fun a b => a ≤ b)

/-- The pivoted row of one `(city, t)` group.  Parameters outside the six
pollutant columns would produce extra columns that every later stage
ignores or drops; they are not represented. -/
def rowAt (city : String) (ms : List Meas) (t : Nat) : AirRow :=
  { city := city
    time := some t
    pm10 := firstParamVal ms t "pm10"
    pm2_5 := firstParamVal ms t "pm2_5"
    carbon_monoxide := firstParamVal ms t "carbon_monoxide"
    nitrogen_dioxide := firstParamVal ms t "nitrogen_dioxide"
    sulphur_dioxide := firstParamVal ms t "sulphur_dioxide"
    ozone := firstParamVal ms t "ozone" }

/-- `flatten_openaq` (transform.py:38-71). -/
def flattenOpenaq (p : PayloadJson) (city : String) : List AirRow :=
  match p.results with
  | none => []
  | some stations =>
    let ms := allMeas stations
    if ms = [] then [] else (sortedTimes ms).map (rowAt city ms)

/-- `flatten_open_meteo` (transform.py:74-92): one row per hour, zipping the
parallel arrays of the `hourly` block. -/
def flattenOpenMeteo (p : PayloadJson) (city : String) : List AirRow :=
  match p.hourly with
  | none => []
  | some h =>
    (List.range h.time.length).map fun i =>
      { city := city
        time := ((h.time.get? i).getD none)
        pm10 := ((h.pm10.get? i).getD none)
        pm2_5 := ((h.pm2_5.get? i).getD none)
        carbon_monoxide := ((h.carbon_monoxide.get? i).getD none)
        nitrogen_dioxide := ((h.nitrogen_dioxide.get? i).getD none)
        sulphur_dioxide := ((h.sulphur_dioxide.get? i).getD none)
        ozone := ((h.ozone.get? i).getD none) }

/-- True iff every one of the six pollutant fields is missing
(the `dropna(subset=pollutants, how="all")` condition, transform.py:127). -/
def allPollutantsMissing (r : AirRow) : Bool :=
  r.pm10.isNone && r.pm2_5.isNone && r.carbon_monoxide.isNone &&
    r.nitrogen_dioxide.isNone && r.sulphur_dioxide.isNone && r.ozone.isNone

/-- `classify_aqi` (transform.py:132-144). -/
def classifyAqi : Option ℚ → String
  | none => "Unknown"
  | some v =>
    if v ≤ 50 then "Good"
    else if v ≤ 100 then "Moderate"
    else if v ≤ 200 then "Unhealthy"
    else if v ≤ 300 then "Very Unhealthy"
    else "Hazardous"

/-- Pandas scalar multiplication of a numeric series cell: NaN stays NaN. -/
def omul (a : Option ℚ) (k : ℚ) : Option ℚ := a.map (· * k)

/-- Pandas addition of two numeric series cells: NaN propagates. -/
def oadd : Option ℚ → Option ℚ → Option ℚ
  | some a, some b => some (a + b)
  | _, _ => none

/-- The severity-score expression (transform.py:151-158), associated the way
pandas evaluates it (left to right). -/
def severityScore (r : AirRow) : Option ℚ :=
  oadd (oadd (oadd (oadd (oadd
    (omul r.pm2_5 5) (omul r.pm10 3)) (omul r.nitrogen_dioxide 4))
    (omul r.sulphur_dioxide 4)) (omul r.carbon_monoxide 2)) (omul r.ozone 3)

/-- `classify_risk` (transform.py:163-171). -/
def classifyRisk : Option ℚ → String
  | none => "Unknown"
  | some s =>
    if 400 < s then "High Risk"
    else if 200 < s then "Moderate Risk"
    else "Low Risk"

/-- Hour of day of an epoch-minute timestamp (`df["time"].dt.hour`). -/
def hourOf (t : Nat) : Nat := t / 60 % 24

/-- A staged row after `add_features`. -/
structure FeatRow extends AirRow where
  aqiCategory : String
  severity_score : Option ℚ
  riskLevel : String
  hour : Option Nat
  deriving DecidableEq, Repr

/-- The feature columns of one kept row (transform.py:129-179). -/
def featRow (r : AirRow) : FeatRow :=
  { r with
    aqiCategory := classifyAqi r.pm2_5
    severity_score := severityScore r
    riskLevel := classifyRisk (severityScore r)
    hour := r.time.map hourOf }

/-- `add_features` (transform.py:110-181): coerce pollutant columns (identity
on this model's numeric-or-missing cells), drop rows where every pollutant
is missing, then derive the feature columns. -/
def addFeatures (rows : List AirRow) : List FeatRow :=
  (rows.filter fun r => !allPollutantsMissing r).map featRow

/-- One raw file as `transform` sees it: the filename stem and the parse
result (`none` models `json.loads` raising, which skips the file,
transform.py:192-196). -/
structure RawFile where
  stem : String
  payload : Option PayloadJson
  deriving DecidableEq, Repr

inductive ApiFormat where
  | openaq
  | openmeteo
  | unknown
  deriving DecidableEq, Repr

/-- `detect_api_format` (transform.py:95-103): key presence, `results`
checked first. -/
def detectApiFormat (p : PayloadJson) : ApiFormat :=
  if p.results.isSome then .openaq
  else if p.hourly.isSome then .openmeteo
  else .unknown

/-- City inferred from the filename: `file.stem.split("_")[0]`
(transform.py:199). -/
def cityOfStem (stem : String) : String :=
  (stem.splitOn "_").headD ""

/-- The DataFrame one file contributes to `all_data`, if any
(transform.py:192-212): parse failures and unknown formats are skipped,
and empty frames are not appended. -/
def fileFrame (f : RawFile) : Option (List AirRow) :=
  match f.payload with
  | none => none
  | some p =>
    match detectApiFormat p with
    | .openaq =>
      let d := flattenOpenaq p (cityOfStem f.stem)
      if d = [] then none else some d
    | .openmeteo =>
      let d := flattenOpenMeteo p (cityOfStem f.stem)
      if d = [] then none else some d
    | .unknown => none

/-- `transform` (transform.py:188-224).  `ambientNow` models the wall clock
available to the script through the imported `datetime` module; the body
never consults it.  Returns `none` when no valid raw data was found (the
source prints an error and writes no staged file). -/
def transform (ambientNow : Nat) (files : List RawFile) : Option (List FeatRow) :=
  let allData := files.filterMap fileFrame
  if allData = [] then none
  else some (addFeatures allData.flatten)

/-! ## load.py: record normalization before insert -/

/-- A pandas DataFrame: column names plus rows, each row an association
list keyed by column name (well-formed frames have `r.map Prod.fst = cols`
for every row). -/
structure DFrame where
  cols : List String
  rows : List Rec
  deriving DecidableEq, Repr

/-- `df.rename(columns=...)` with a total renaming function. -/
def renameCols (f : String → String) (df : DFrame) : DFrame :=
  { cols := df.cols.map f
    rows := df.rows.map fun r => r.map fun kv => (f kv.1, kv.2) }

/-- The `rename_map` of `_normalize_for_insert` (load.py:94-103), as the
renaming function it induces.  The `AQI_Category` branch is dead after the
lower-casing rename (no upper-case column name can remain), and is kept
faithfully. -/
def renameMapFn (df : DFrame) (c : String) : String :=
  if "aqi_category" ∉ df.cols ∧ "AQI_CATEGORY" ∈ df.cols ∧ c = "AQI_Category" then
    "aqi_category"
  else if "risk_flag" ∉ df.cols ∧ "risk_level" ∈ df.cols ∧ c = "risk_level" then
    "risk_flag"
  else if "risk_flag" ∉ df.cols ∧ "risk" ∈ df.cols ∧ c = "risk" then
    "risk_flag"
  else c

/-- The canonical DB columns (load.py:84-88). -/
def expectedCols : List String :=
  ["city", "time", "pm10", "pm2_5", "carbon_monoxide", "nitrogen_dioxide",
   "sulphur_dioxide", "ozone", "uv_index", "aqi_category", "severity_score",
   "risk_flag", "hour"]

/-- The numeric columns (load.py:115). -/
def numCols : List String :=
  ["pm10", "pm2_5", "carbon_monoxide", "nitrogen_dioxide", "sulphur_dioxide",
   "ozone", "uv_index", "severity_score", "hour"]

/-- `df[col] = None` for one absent canonical column (load.py:106-108). -/
def addMissingCol (df : DFrame) (c : String) : DFrame :=
  if c ∈ df.cols then df
  else
    { cols := df.cols ++ [c]
      rows := df.rows.map fun r => r ++ [(c, Cell.cnull)] }

def ensureCols (df : DFrame) : DFrame :=
  expectedCols.foldl addMissingCol df

/-- Apply a cell function to one named column. -/
def mapCol (c : String) (f : Cell → Cell) (df : DFrame) : DFrame :=
  { df with
    rows := df.rows.map fun r => r.map fun kv => if kv.1 = c then (kv.1, f kv.2) else kv }

/-- Apply a cell function to every cell. -/
def mapCells (f : Cell → Cell) (df : DFrame) : DFrame :=
  { df with rows := df.rows.map fun r => r.map fun kv => (kv.1, f kv.2) }

/-- Inverse of `dtIso`: parsing of the model's ISO rendering. -/
def parseDT (s : String) : Option Nat := s.toNat?

/-- `pd.to_datetime(col, errors="coerce")` on one cell: `None`/NaN become
NaT (modelled by `cnan`), unparseable strings become NaT, numbers are
interpreted as epoch offsets. -/
def toDatetimeCell : Cell → Cell
  | .npDT t => .npDT t
  | .cnull => .cnan
  | .cnan => .cnan
  | .pyStr s =>
    match parseDT s with
    | some t => .npDT t
    | none => .cnan
  | .npInt n => .npDT n.toNat
  | .pyInt n => .npDT n.toNat
  | .npFloat q => if q.den = 1 then .npDT q.num.toNat else .cnan
  | .pyFloat q => if q.den = 1 then .npDT q.num.toNat else .cnan
  | .npBool _ => .cnan
  | .pyBool _ => .cnan

/-- The `isoformat`-or-`None` map over the time column (load.py:112). -/
def isoApplyCell : Cell → Cell
  | .npDT t => .pyStr (dtIso t)
  | .cnan => .cnull
  | .cnull => .cnull
  | v => v

/-- A simple decimal-literal parser modelling which strings
`pd.to_numeric` accepts. -/
def parseQ (s : String) : Option ℚ :=
  let core : String → Option ℚ := fun t =>
    match t.splitOn "." with
    | [a] => a.toNat?.map fun n => (n : ℚ)
    | [a, b] =>
      match a.toNat?, b.toNat? with
      | some n, some f => some ((n : ℚ) + (f : ℚ) / ((10 : ℚ) ^ b.length))
      | _, _ => none
    | _ => none
  if s.startsWith "-" then (core (s.drop 1)).map Neg.neg else core s

/-- `pd.to_numeric(col, errors="coerce")` on one cell. -/
def toNumericCell : Cell → Cell
  | .npInt n => .npInt n
  | .pyInt n => .npInt n
  | .npFloat q => .npFloat q
  | .pyFloat q => .npFloat q
  | .npBool b => .npInt (if b then 1 else 0)
  | .pyBool b => .npInt (if b then 1 else 0)
  | .cnan => .cnan
  | .cnull => .cnan
  | .npDT _ => .cnan
  | .pyStr s =>
    match parseQ s with
    | some q => .npFloat q
    | none => .cnan

/-- `df.where(pd.notnull(df), None)` on one cell (load.py:128): missing
markers become `None`. -/
def whereNotNullCell : Cell → Cell
  | .cnan => .cnull
  | v => v

/-- First matching cell of a named column (`pandas` column selection). -/
def lookupCell (r : Rec) (c : String) : Cell :=
  ((r.find? fun kv => kv.1 == c).map Prod.snd).getD Cell.cnull

/-- `df[cs]`: select columns in the given order. -/
def selectCols (cs : List String) (df : DFrame) : DFrame :=
  { cols := cs
    rows := df.rows.map fun r => cs.map fun c => (c, lookupCell r c) }

/-- The post-rename staged frame (the first two steps of
`_normalize_for_insert`, load.py:90-103): lower-cased column names with the
`rename_map` applied. -/
def renamedInput (df : DFrame) : DFrame :=
  renameCols (renameMapFn (renameCols lowerStr df)) (renameCols lowerStr df)

/-- The staged frame after the cell-level steps of `_normalize_for_insert`
(load.py:105-128): ensure the canonical columns exist, normalize the time
column to ISO-or-None, coerce the numeric columns, and replace missing
markers by `None`.  The `hour` `astype("Int64")` cast (load.py:121-125)
only changes the column dtype, never a value, so it is invisible at this
level. -/
def stagedPrepped (df : DFrame) : DFrame :=
  mapCells whereNotNullCell
    (numCols.foldl (fun d c => if c ∈ d.cols then mapCol c toNumericCell d else d)
      (mapCol "time" (fun v => isoApplyCell (toDatetimeCell v))
        (ensureCols (renamedInput df))))

/-- `_normalize_for_insert` (load.py:75-130): the cell-level preparation
followed by `df[expected_cols]`, the selection of exactly the canonical
columns in canonical order. -/
def normalizeForInsert (df : DFrame) : DFrame :=
  selectCols expectedCols (stagedPrepped df)

/-! ## load.py: batched insert loop -/

/-- `records[i : i + BATCH_SIZE]` slicing of the batch loop
(load.py:188-190).  A zero batch size would make the Python `range` raise;
the guard keeps the definition total. -/
def chunks (bsz : Nat) (l : List Rec) : List (List Rec) :=
  if h : l = [] ∨ bsz = 0 then []
  else (l.take bsz) :: chunks bsz (l.drop bsz)
termination_by l.length
decreasing_by
  have hne : ¬(l = [] ∨ bsz = 0) := by assumption
  push_neg at hne
  have h0 : 0 < l.length := List.length_pos.mpr hne.1
  have h1 : 0 < bsz := Nat.pos_of_ne_zero hne.2
  simp only [List.length_drop]
  omega

/-- The defensive per-record NaN scrub before type normalization
(load.py:191-195). -/
def defensiveClean (r : Rec) : Rec :=
  r.map fun kv => (kv.1, if kv.2 = Cell.cnan then Cell.cnull else kv.2)

/-- What one batch looks like by the time it reaches
`supabase.table(...).insert(batch)` (load.py:191-206). -/
def prepBatch (b : List Rec) : List Rec :=
  normalizeRecordTypes (b.map defensiveClean)

/-- Outcome of the per-batch retry loop. -/
structure BatchTrace where
  attempts : Nat
  waits : List Nat
  success : Bool
  deriving DecidableEq, Repr

/-- The `while attempt <= RETRY_COUNT and not success` loop
(load.py:200-237), as a recursion over the remaining attempts: called
with `a = 1` and `fuel = retryCount + 1`.  After a failed attempt the
code backs off `2 ^ (attempt - 1)` seconds unless it was the final
attempt. -/
def batchLoop (sink : Nat → Bool) (a : Nat) : Nat → BatchTrace
  | 0 => ⟨0, [], false⟩
  | fuel + 1 =>
    if sink a then ⟨1, [], true⟩
    else if fuel = 0 then ⟨1, [], false⟩
    else
      let t := batchLoop sink (a + 1) fuel
      ⟨t.attempts + 1, 2 ^ (a - 1) :: t.waits, t.success⟩

structure FailedBatch where
  batch : Nat
  size : Nat
  deriving DecidableEq, Repr

structure LoadReport where
  total : Nat
  inserted : Nat
  failed_batches : List FailedBatch
  deriving DecidableEq, Repr

/-- The body of the batch loop over the enumerated batches: accumulates the
inserted count and the failed-batch list (load.py:188-240).  `sink b a`
tells whether the insert of batch number `b` succeeds at attempt `a`. -/
def runBatches (sink : Nat → Nat → Bool) (rc : Nat) :
    List (Nat × List Rec) → Nat × List FailedBatch
  | [] => (0, [])
  | (bno, b) :: rest =>
    let pb := prepBatch b
    let t := batchLoop (sink bno) 1 (rc + 1)
    let r := runBatches sink rc rest
    if t.success then (pb.length + r.1, r.2) else (r.1, ⟨bno, pb.length⟩ :: r.2)

/-- Pair each batch with its 1-indexed batch number. -/
def numberFrom (n : Nat) : List (List Rec) → List (Nat × List Rec)
  | [] => []
  | b :: rest => (n, b) :: numberFrom (n + 1) rest

/-- Batch numbering `(i // BATCH_SIZE) + 1` (load.py:189). -/
def enumBatches (bs : List (List Rec)) : List (Nat × List Rec) :=
  numberFrom 1 bs

/-- The LoadReport of the whole loop (load.py:252-256). -/
def loadReport (sink : Nat → Nat → Bool) (rc bsz : Nat) (recs : List Rec) : LoadReport :=
  let r := runBatches sink rc (enumBatches (chunks bsz recs))
  ⟨recs.length, r.1, r.2⟩

/-- The world `load_to_supabase` interacts with: the staged-CSV read
(`none` models `_read_staged` raising, which is caught), the client
construction, and the per-batch insert outcomes. -/
structure LoadEnv where
  stagedRead : Option DFrame
  sinkInit : Except String Unit
  sink : Nat → Nat → Bool

/-- `load_to_supabase` (load.py:167-256): returns `.ok none` when the
function bails out early with no report (read failure, zero records),
`.error` when an uncaught exception propagates
(`get_supabase_client`, load.py:181), and `.ok (some report)` otherwise. -/
def loadToSupabase (env : LoadEnv) (bsz rc : Nat) : Except String (Option LoadReport) :=
  match env.stagedRead with
  | none => .ok none
  | some df =>
    let recs := (normalizeForInsert df).rows
    if recs.length = 0 then .ok none
    else
      match env.sinkInit with
      | .error e => .error e
      | .ok _ => .ok (some (loadReport env.sink rc bsz recs))

/-! ## extract.py -/

/-- An HTTP response as `call_openaq_v3` inspects it. -/
structure Resp where
  status : Nat
  body : PayloadJson
  deriving DecidableEq, Repr

/-- Python truthiness of `data.get("results")`: key present with a
non-empty list. -/
def truthyResults (p : PayloadJson) : Bool :=
  match p.results with
  | some (_ :: _) => true
  | _ => false

/-- `call_openaq_v3` (extract.py:71-79): `None` both on a non-200 status and
on a 200 response whose `results` is empty or absent. -/
def callOpenaqV3 (r : Resp) : Option PayloadJson :=
  if r.status = 200 ∧ truthyResults r.body then some r.body else none

/-- The network's behaviour towards one city: the primary response per
attempt number (`.error` models `requests.get` raising), and the fallback
outcome (`.error` a raised exception, `.ok none` a non-200 response,
`.ok (some p)` a 200 response). -/
structure CityOracle where
  primary : Nat → Except String Resp
  fallback : Except String (Option PayloadJson)

/-- The per-city result dict (extract.py:111,129,132): `source` is
`"OpenAQ"`, `"Open-Meteo"`, or `None` when both sources failed. -/
structure FetchResult where
  city : String
  source : Option String
  deriving DecidableEq, Repr

/-- Outcome of the primary retry loop. -/
structure PrimaryTrace where
  attempts : Nat
  waits : List Nat
  payload : Option PayloadJson
  deriving DecidableEq, Repr

/-- The `for attempt in range(1, MAX_RETRIES + 1)` loop of `fetch_city`
(extract.py:104-117), called with `a = 1` and `fuel = MAX_RETRIES`.
Exceptions from the primary call are caught; an empty or failed response
falls through to the backoff sleep `2 ** (attempt - 1)`, which runs after
every unsuccessful attempt (including the last). -/
def primaryLoop (primary : Nat → Except String Resp) (a : Nat) : Nat → PrimaryTrace
  | 0 => ⟨0, [], none⟩
  | fuel + 1 =>
    match primary a with
    | .ok r =>
      match callOpenaqV3 r with
      | some d => ⟨1, [], some d⟩
      | none =>
        let t := primaryLoop primary (a + 1) fuel
        ⟨t.attempts + 1, 2 ^ (a - 1) :: t.waits, t.payload⟩
    | .error _ =>
      let t := primaryLoop primary (a + 1) fuel
      ⟨t.attempts + 1, 2 ^ (a - 1) :: t.waits, t.payload⟩

instance {ε α : Type} [DecidableEq ε] [DecidableEq α] : DecidableEq (Except ε α) := fun a b =>
  match a, b with
  | .error e₁, .error e₂ => decidable_of_iff (e₁ = e₂) (by simp)
  | .error _, .ok _ => isFalse (by simp)
  | .ok _, .error _ => isFalse (by simp)
  | .ok a₁, .ok a₂ => decidable_of_iff (a₁ = a₂) (by simp)

/-- What `fetch_city` did and returned. -/
structure FetchTrace where
  primaryAttempts : Nat
  primaryWaits : List Nat
  result : Except String FetchResult
  deriving DecidableEq, Repr

/-- `fetch_city` (extract.py:99-132).  The fallback call
(extract.py:124) is not inside a `try`, so an exception it raises
propagates out of `fetch_city`. -/
def fetchCity (o : CityOracle) (maxRetries : Nat) (city : String) : FetchTrace :=
  let t := primaryLoop o.primary 1 maxRetries
  match t.payload with
  | some _ => ⟨t.attempts, t.waits, .ok ⟨city, some "OpenAQ"⟩⟩
  | none =>
    match o.fallback with
    | .error e => ⟨t.attempts, t.waits, .error e⟩
    | .ok (some _) => ⟨t.attempts, t.waits, .ok ⟨city, some "Open-Meteo"⟩⟩
    | .ok none => ⟨t.attempts, t.waits, .ok ⟨city, none⟩⟩

/-- `fetch_all` (extract.py:135-139): sequential loop appending each city's
result; an exception escaping `fetch_city` propagates. -/
def fetchAll (oracles : String → CityOracle) (maxRetries : Nat) :
    List String → Except String (List FetchResult)
  | [] => .ok []
  | c :: rest =>
    match (fetchCity (oracles c) maxRetries c).result with
    | .error e => .error e
    | .ok r =>
      match fetchAll oracles maxRetries rest with
      | .error e => .error e
      | .ok rs => .ok (r :: rs)

/-- `DEFAULT_CITIES` (extract.py:37-43), in dict insertion order. -/
def defaultCities : List String :=
  ["Delhi", "Bengaluru", "Hyderabad", "Mumbai", "Kolkata"]

/-! ## etlex/scripts/validate.py -/

/-- The three derived categorical fields of one staged Telco row, `none`
modelling a null cell (dropped by `.dropna()` before the checks). -/
structure TelcoRow where
  tenure_group : Option String
  monthly_charge_segment : Option String
  contract_type_code : Option ℚ
  deriving DecidableEq, Repr

def expectedTenureGroups : List String := ["New", "Regular", "Loyal", "Champion"]

def expectedChargeSegments : List String := ["Low", "Medium", "High"]

def allowedContractCodes : List ℚ := [0, 1, 2]

/-- The non-null observed values of a string column. -/
def observedStr (f : TelcoRow → Option String) (df : List TelcoRow) : List String :=
  (df.filterMap f).dedup

/-- The `tenure_group` check (validate.py:111-120): passes iff
`expected_tenure_groups - actual_tenure_groups` is empty. -/
def tenureGroupCheck (df : List TelcoRow) : Bool :=
  expectedTenureGroups.all fun g => (observedStr TelcoRow.tenure_group df).contains g

/-- The `monthly_charge_segment` check (validate.py:126-135): passes iff
`expected_charge_segments - actual_charge_segments` is empty. -/
def chargeSegmentCheck (df : List TelcoRow) : Bool :=
  expectedChargeSegments.all fun g =>
    (observedStr TelcoRow.monthly_charge_segment df).contains g

/-- The `contract_type_code` check (validate.py:141-151): passes iff
`unique_codes - allowed_codes` is empty. -/
def contractCodeCheck (df : List TelcoRow) : Bool :=
  (df.filterMap TelcoRow.contract_type_code).all fun c => allowedContractCodes.contains c

structure TelcoChecks where
  tenureOk : Bool
  chargeOk : Bool
  contractOk : Bool
  deriving DecidableEq, Repr

/-- The segment checks of `validate_telco` (validate.py:109-154): each check
is computed and printed unconditionally, none is gated on another. -/
def validateTelco (df : List TelcoRow) : TelcoChecks :=
  ⟨tenureGroupCheck df, chargeSegmentCheck df, contractCodeCheck df⟩

/-! ## run_pipeline.py -/

/-- The per-stage behaviour of the outside world for one pipeline run. -/
structure PipelineEnv where
  extractOutcome : Except String (List FetchResult)
  transformOutcome : Except String (Option String)
  loadEnv : LoadEnv
  analysisOutcome : Except String Unit

/-- `run_load` (run_pipeline.py:164-206): raises when no staged CSV was
provided; otherwise calls `load_to_supabase`.  An exception from the load
module is caught and the script fallback is attempted, which itself
raises a `NameError` (`os` is not imported in run_pipeline.py, line 197),
so an exception outcome stays an exception. -/
def runLoad (lenv : LoadEnv) (bsz rc : Nat) : Option String → Except String (Option LoadReport)
  | none => .error "no staged csv provided to load step"
  | some _ =>
    match loadToSupabase lenv bsz rc with
    | .ok r => .ok r
    | .error _ => .error "NameError raised by the script fallback"

/-- Which stages ran during a pipeline run, and whether the run ended in
the aborted state (an early `return` after printing a step failure,
run_pipeline.py:237-273). -/
structure PipelineTrace where
  extractRan : Bool
  transformRan : Bool
  loadRan : Bool
  analysisRan : Bool
  aborted : Bool
  deriving DecidableEq, Repr

/-- `run_full_pipeline` (run_pipeline.py:237-273): each stage runs inside a
`try`; an exception prints a failure message and returns (aborts), a
normal return of any value continues to the next stage. -/
def runFullPipeline (env : PipelineEnv) (bsz rc : Nat) : PipelineTrace :=
  match env.extractOutcome with
  | .error _ => ⟨true, false, false, false, true⟩
  | .ok _ =>
    match env.transformOutcome with
    | .error _ => ⟨true, true, false, false, true⟩
    | .ok staged =>
      match runLoad env.loadEnv bsz rc staged with
      | .error _ => ⟨true, true, true, false, true⟩
      | .ok _ =>
        match env.analysisOutcome with
        | .error _ => ⟨true, true, true, true, true⟩
        | .ok _ => ⟨true, true, true, true, false⟩

/-! ## Small helper views used by the theorems -/

/-- Whether an `Except` outcome is a normal return. -/
def isOkE {ε α : Type} : Except ε α → Bool
  | .ok _ => true
  | .error _ => false

/-- True when a primary attempt outcome does not produce data: either the
call raised (caught by `fetch_city`) or `call_openaq_v3` returned `None`
(non-200, or 200 with empty `results`). -/
def noSuccessB : Except String Resp → Bool
  | .ok r => (callOpenaqV3 r).isNone
  | .error _ => true

/-- What `fetch_city` returns once it reaches the fallback branch
(extract.py:119-132). -/
def fallbackOutcome (o : CityOracle) (city : String) : Except String FetchResult :=
  match o.fallback with
  | .error e => .error e
  | .ok (some _) => .ok ⟨city, some "Open-Meteo"⟩
  | .ok none => .ok ⟨city, none⟩

/-- The successive batches exactly as they are passed to
`supabase.table(table_name).insert(batch)` (load.py:188-206). -/
def insertBatches (df : DFrame) (bsz : Nat) : List (List Rec) :=
  (chunks bsz (normalizeForInsert df).rows).map prepBatch

/-- The partition guarantees of the batch loop, as one proposition over the
staged records, the batching parameters and the sink behaviour. -/
def loadPartitionSpec (recs : List Rec) (bsz rc : Nat) (sink : Nat → Nat → Bool) : Prop :=
  (chunks bsz recs).flatten = recs ∧
  (∀ b ∈ chunks bsz recs, b ≠ [] ∧ b.length ≤ bsz) ∧
  (∀ b ∈ (chunks bsz recs).dropLast, b.length = bsz) ∧
  (loadReport sink rc bsz recs).total = recs.length ∧
  (loadReport sink rc bsz recs).inserted =
    (((enumBatches (chunks bsz recs)).filter fun p =>
        (batchLoop (sink p.1) 1 (rc + 1)).success).map fun p => p.2.length).sum ∧
  (loadReport sink rc bsz recs).failed_batches =
    ((enumBatches (chunks bsz recs)).filter fun p =>
        !(batchLoop (sink p.1) 1 (rc + 1)).success).map (fun p => ⟨p.1, p.2.length⟩) ∧
  (loadReport sink rc bsz recs).inserted +
      ((loadReport sink rc bsz recs).failed_batches.map FailedBatch.size).sum =
    (loadReport sink rc bsz recs).total ∧
  (∀ p ∈ enumBatches (chunks bsz recs),
    ((batchLoop (sink p.1) 1 (rc + 1)).success = true ∧
      p.1 ∉ (loadReport sink rc bsz recs).failed_batches.map FailedBatch.batch) ∨
    ((batchLoop (sink p.1) 1 (rc + 1)).success = false ∧
      p.1 ∈ (loadReport sink rc bsz recs).failed_batches.map FailedBatch.batch))

/-! ## Concrete instances used by counterexamples and witnesses -/

/-- A staged row with `pm10` present and every other pollutant missing. -/
def pm10OnlyRow : AirRow :=
  { city := "Delhi"
    time := some 0
    pm10 := some 40
    pm2_5 := none
    carbon_monoxide := none
    nitrogen_dioxide := none
    sulphur_dioxide := none
    ozone := none }

/-- A staged Telco frame whose `tenure_group` column contains all four
expected segments plus a value outside the closed enumeration. -/
def telcoCexDf : List TelcoRow :=
  [⟨some "New", some "Low", some 0⟩,
   ⟨some "Regular", some "Medium", some 1⟩,
   ⟨some "Loyal", some "High", some 2⟩,
   ⟨some "Champion", some "Low", some 0⟩,
   ⟨some "Garbage", some "Low", some 0⟩]

/-- A 200 response whose `results` list is present but empty. -/
def emptyOkResp : Resp := ⟨200, ⟨some [], none⟩⟩

/-- A network where every primary attempt returns 200-with-empty-results
and the fallback answers with data. -/
def em200Oracle : CityOracle :=
  { primary := fun _ => .ok emptyOkResp
    fallback := .ok (some ⟨none, some ⟨[], [], [], [], [], [], []⟩⟩) }

/-- A network where the primary raises on every attempt and the fallback
call raises a network exception. -/
def downOracle : CityOracle :=
  { primary := fun _ => .error "timeout"
    fallback := .error "timeout" }

/-- A network where the primary raises on every attempt and the fallback
returns a non-200 response (`call_open_meteo` returns `None`). -/
def bothFailOracle : CityOracle :=
  { primary := fun _ => .error "down"
    fallback := .ok none }

/-- A staged frame with no rows at all. -/
def emptyStagedDF : DFrame := ⟨[], []⟩

/-- A staged frame with one row. -/
def oneRowDF : DFrame := ⟨["city"], [[("city", Cell.pyStr "Delhi")]]⟩

/-- A run whose extraction step raises. -/
def envExtractFail : PipelineEnv :=
  ⟨.error "extract failed", .ok none, ⟨none, .ok (), fun _ _ => true⟩, .ok ()⟩

/-- A run whose transform step finds no staged CSV. -/
def envNoStaged : PipelineEnv :=
  ⟨.ok [], .ok none, ⟨some oneRowDF, .ok (), fun _ _ => true⟩, .ok ()⟩

/-- A run with staged data but an unreachable sink. -/
def envSinkDown : PipelineEnv :=
  ⟨.ok [], .ok (some "staged.csv"), ⟨some oneRowDF, .error "sink down", fun _ _ => true⟩, .ok ()⟩

/-- A run whose staged dataset is empty. -/
def envEmptyStaged : PipelineEnv :=
  ⟨.ok [], .ok (some "staged.csv"), ⟨some emptyStagedDF, .ok (), fun _ _ => true⟩, .ok ()⟩

/-- Five trivial records for exercising the batch loop. -/
def recsW : List Rec := [[], [], [], [], []]

/-- A sink where batch 2 always fails and every other batch succeeds
immediately. -/
def sinkW : Nat → Nat → Bool := fun b _ => !(b == 2)

/-- A staged frame exercising `_normalize_for_insert`: an extra column, a
upper-case risk column, a NaN measurement, and several canonical columns
absent. -/
def dfW : DFrame :=
  ⟨["City", "Time", "pm10", "Risk_Level", "junk"],
   [[("City", Cell.pyStr "Delhi"), ("Time", Cell.npDT 90), ("pm10", Cell.cnan),
     ("Risk_Level", Cell.pyStr "Low Risk"), ("junk", Cell.pyStr "x")],
    [("City", Cell.pyStr "Delhi"), ("Time", Cell.cnull), ("pm10", Cell.npFloat 40),
     ("Risk_Level", Cell.pyStr "Low Risk"), ("junk", Cell.cnan)]]⟩

/-! # Theorems -/

theorem toNat_ofNat_of_valid {n : Nat} (h : n.isValidChar) :
    (Char.ofNat n).toNat = n := by
  unfold Char.ofNat
  rw [dif_pos h]
  unfold Char.ofNatAux Char.toNat
  simp [UInt32.toNat]

theorem lowerChar_idem (c : Char) : lowerChar (lowerChar c) = lowerChar c := by
  unfold lowerChar
  by_cases h : 65 ≤ c.toNat ∧ c.toNat ≤ 90
  · rw [if_pos h]
    have hv : (Char.ofNat (c.toNat + 32)).toNat = c.toNat + 32 :=
      toNat_ofNat_of_valid (Or.inl (by omega))
    rw [if_neg (by omega)]
  · rw [if_neg h, if_neg h]

theorem lowerStr_idem (s : String) : lowerStr (lowerStr s) = lowerStr s := by
  unfold lowerStr
  simp [List.map_map, Function.comp_def, lowerChar_idem]


/-! ### Idempotence of the record normalization -/

theorem normalizeValue_idem (v : Cell) :
    normalizeValue (normalizeValue v) = normalizeValue v := by
  cases v <;> try rfl
  next q => by_cases h : q.den = 1 <;> simp [normalizeValue, h]

theorem dictInsert_of_not_mem (k : String) (v : Cell) (d : Rec)
    (h : k ∉ d.map Prod.fst) : dictInsert k v d = d ++ [(k, v)] := by
  induction d with
  | nil => rfl
  | cons kv rest ih =>
    simp only [List.map_cons, List.mem_cons] at h
    push_neg at h
    simp [dictInsert, Ne.symm h.1, ih h.2]

theorem keys_dictInsert (k : String) (v : Cell) (d : Rec) :
    (dictInsert k v d).map Prod.fst =
      if k ∈ d.map Prod.fst then d.map Prod.fst else d.map Prod.fst ++ [k] := by
  induction d with
  | nil => rfl
  | cons kv rest ih =>
    by_cases hk : kv.1 = k
    · simp [dictInsert, hk]
    · simp only [dictInsert, if_neg hk, List.map_cons, ih, List.mem_cons]
      by_cases hm : k ∈ rest.map Prod.fst
      · simp [hm, Ne.symm hk]
      · simp [hm, Ne.symm hk]

theorem mem_dictInsert (k : String) (v : Cell) (d : Rec) (p : String × Cell)
    (hp : p ∈ dictInsert k v d) : p ∈ d ∨ p = (k, v) ∨ (p.1 = k ∧ p.2 = v) := by
  induction d with
  | nil =>
    simp [dictInsert] at hp
    exact Or.inr (Or.inl hp)
  | cons kv rest ih =>
    by_cases hk : kv.1 = k
    · simp only [dictInsert, if_pos hk, List.mem_cons] at hp
      rcases hp with h | h
      · exact Or.inr (Or.inr ⟨by rw [h, hk], by rw [h]⟩)
      · exact Or.inl (List.mem_cons_of_mem _ h)
    · simp only [dictInsert, if_neg hk, List.mem_cons] at hp
      rcases hp with h | h
      · exact Or.inl (by simp [h])
      · rcases ih h with h' | h' | h'
        · exact Or.inl (List.mem_cons_of_mem _ h')
        · exact Or.inr (Or.inl h')
        · exact Or.inr (Or.inr h')

/-- Every key of a built record is lower-case-fixed and every value is
normalization-fixed. -/
theorem normalizeRecord_pairs_fixed (r : Rec) :
    ∀ p ∈ normalizeRecord r, lowerStr p.1 = p.1 ∧ normalizeValue p.2 = p.2 := by
  unfold normalizeRecord
  suffices h : ∀ (acc : Rec),
      (∀ p ∈ acc, lowerStr p.1 = p.1 ∧ normalizeValue p.2 = p.2) →
      ∀ p ∈ r.foldl (fun acc kv => dictInsert (lowerStr kv.1) (normalizeValue kv.2) acc) acc,
        lowerStr p.1 = p.1 ∧ normalizeValue p.2 = p.2 by
    exact h [] (by simp)
  induction r with
  | nil => intro acc hacc p hp; exact hacc p hp
  | cons kv rest ih =>
    intro acc hacc p hp
    refine ih _ ?_ p hp
    intro q hq
    rcases mem_dictInsert _ _ _ q hq with h | h | h
    · exact hacc q h
    · rw [h]
      exact ⟨lowerStr_idem kv.1, normalizeValue_idem kv.2⟩
    · refine ⟨?_, ?_⟩
      · rw [h.1]; exact lowerStr_idem kv.1
      · rw [h.2]; exact normalizeValue_idem kv.2

/-- The keys of a built record are distinct. -/
theorem normalizeRecord_keys_nodup (r : Rec) :
    ((normalizeRecord r).map Prod.fst).Nodup := by
  unfold normalizeRecord
  suffices h : ∀ (acc : Rec), (acc.map Prod.fst).Nodup →
      ((r.foldl (fun acc kv => dictInsert (lowerStr kv.1) (normalizeValue kv.2) acc) acc).map
        Prod.fst).Nodup by
    exact h [] (by simp)
  induction r with
  | nil => intro acc hacc; exact hacc
  | cons kv rest ih =>
    intro acc hacc
    refine ih _ ?_
    rw [keys_dictInsert]
    split
    · exact hacc
    · next hm =>
        refine List.Nodup.append hacc (List.nodup_singleton _) ?_
        intro x hx hc
        simp only [List.mem_singleton] at hc
        exact hm (hc ▸ hx)

/-- Folding the normalization over an already-normalized record with distinct
keys appends the record unchanged. -/
theorem foldl_normalize_fixed (r : Rec) :
    ∀ (acc : Rec),
      (∀ p ∈ r, lowerStr p.1 = p.1 ∧ normalizeValue p.2 = p.2) →
      ((r.map Prod.fst).Nodup) →
      (∀ k ∈ r.map Prod.fst, k ∉ acc.map Prod.fst) →
      r.foldl (fun acc kv => dictInsert (lowerStr kv.1) (normalizeValue kv.2) acc) acc =
        acc ++ r := by
  induction r with
  | nil => intro acc _ _ _; simp
  | cons kv rest ih =>
    intro acc hfix hnd hdisj
    have hk : lowerStr kv.1 = kv.1 := (hfix kv (List.mem_cons_self _ _)).1
    have hv : normalizeValue kv.2 = kv.2 := (hfix kv (List.mem_cons_self _ _)).2
    have hnd' : (kv.1 :: rest.map Prod.fst).Nodup := by simpa using hnd
    have hnotin : kv.1 ∉ acc.map Prod.fst :=
      hdisj kv.1 (by simp)
    simp only [List.foldl_cons, hk, hv]
    rw [dictInsert_of_not_mem _ _ _ hnotin]
    have hrest := ih (acc ++ [(kv.1, kv.2)])
      (fun p hp => hfix p (List.mem_cons_of_mem _ hp))
      (List.nodup_cons.mp hnd').2
      (by
        intro k hkmem
        simp only [List.map_append, List.map_cons, List.map_nil, List.mem_append,
          List.mem_singleton]
        push_neg
        refine ⟨hdisj k (by simp [hkmem]), ?_⟩
        intro hc
        exact (List.nodup_cons.mp hnd').1 (hc ▸ hkmem))
    rw [hrest]
    simp

theorem normalizeRecord_idem (r : Rec) :
    normalizeRecord (normalizeRecord r) = normalizeRecord r := by
  have h := foldl_normalize_fixed (normalizeRecord r) []
    (normalizeRecord_pairs_fixed r) (normalizeRecord_keys_nodup r) (by simp)
  unfold normalizeRecord at h ⊢
  rw [h]
  simp

/-! ## C8: transform determinism -/

/-- C8: `transform` is deterministic — identical input snapshots yield
identical staged content, with no dependence on the ambient wall clock
(the `ambientNow` parameter models the clock the script could read via
the imported `datetime` module; the body never consults it). -/
theorem transform_deterministic (n₁ n₂ : Nat) (files : List RawFile) :
    transform n₁ files = transform n₂ files := rfl

/-! ## C7: idempotent record normalization -/

/-- C7: `_normalize_record_types` is idempotent — applying it to its own
output returns that output unchanged. -/
theorem normalizeRecordTypes_idem (rs : List Rec) :
    normalizeRecordTypes (normalizeRecordTypes rs) = normalizeRecordTypes rs := by
  unfold normalizeRecordTypes
  simp only [List.map_map, Function.comp_def, normalizeRecord_idem]

/-! ## C1: the severity score and missing measurements -/

theorem oadd_isNone (a b : Option ℚ) : (oadd a b).isNone = (a.isNone || b.isNone) := by
  cases a <;> cases b <;> rfl

theorem omul_isNone (a : Option ℚ) (k : ℚ) : (omul a k).isNone = a.isNone := by
  cases a <;> rfl

theorem severityScore_isNone (r : AirRow) :
    (severityScore r).isNone =
      (r.pm2_5.isNone || r.pm10.isNone || r.nitrogen_dioxide.isNone ||
       r.sulphur_dioxide.isNone || r.carbon_monoxide.isNone || r.ozone.isNone) := by
  simp only [severityScore, oadd_isNone, omul_isNone, Bool.or_assoc]

/-- C1 (counterexample): a record with `pm2_5` missing but `pm10 = 40`
survives the all-missing drop yet gets a missing severity score, refuting
the claim that the score is missing iff all contributing fields are
missing (and that such a record gets a score computed from the available
fields). -/
theorem severity_iff_all_missing_cex :
    addFeatures [pm10OnlyRow] = [featRow pm10OnlyRow] ∧
    (featRow pm10OnlyRow).severity_score = none ∧
    allPollutantsMissing pm10OnlyRow = false ∧
    pm10OnlyRow.pm10 = some 40 ∧ pm10OnlyRow.pm2_5 = none := by
  refine ⟨rfl, rfl, rfl, rfl, rfl⟩

/-- C1 (amended): for every record produced by `add_features`, the severity
score is missing iff at least one contributing measurement field is
missing (NaN propagates through the weighted sum), and no produced record
has all contributing fields missing (such rows are dropped). -/
theorem severity_missing_iff_any_missing (rows : List AirRow) (fr : FeatRow)
    (h : fr ∈ addFeatures rows) :
    (fr.severity_score.isNone =
      (fr.pm2_5.isNone || fr.pm10.isNone || fr.nitrogen_dioxide.isNone ||
       fr.sulphur_dioxide.isNone || fr.carbon_monoxide.isNone || fr.ozone.isNone)) ∧
    allPollutantsMissing fr.toAirRow = false := by
  unfold addFeatures at h
  obtain ⟨r, hr, rfl⟩ := List.mem_map.mp h
  have hkept := (List.mem_filter.mp hr).2
  refine ⟨severityScore_isNone r, ?_⟩
  simpa using hkept

/-- C1 witness: the amended theorem applied at the one-row dataset
containing `pm10OnlyRow`. -/
theorem severity_missing_iff_any_missing_witness :
    (featRow pm10OnlyRow ∈ addFeatures [pm10OnlyRow]) ∧
    (((featRow pm10OnlyRow).severity_score.isNone =
      ((featRow pm10OnlyRow).pm2_5.isNone || (featRow pm10OnlyRow).pm10.isNone ||
       (featRow pm10OnlyRow).nitrogen_dioxide.isNone ||
       (featRow pm10OnlyRow).sulphur_dioxide.isNone ||
       (featRow pm10OnlyRow).carbon_monoxide.isNone ||
       (featRow pm10OnlyRow).ozone.isNone)) ∧
      allPollutantsMissing (featRow pm10OnlyRow).toAirRow = false) :=
  ⟨by decide,
   severity_missing_iff_any_missing [pm10OnlyRow] (featRow pm10OnlyRow) (by decide)⟩

/-! ## C9: the validator's categorical checks -/

/-- C9 (counterexample): the `tenure_group` check passes on a frame whose
observed value set is not a subset of the closed enumeration, refuting the
claimed pass-iff-subset characterization. -/
theorem tenure_check_passes_despite_junk_cex :
    tenureGroupCheck telcoCexDf = true ∧
    ("Garbage" ∈ observedStr TelcoRow.tenure_group telcoCexDf) ∧
    ("Garbage" ∉ expectedTenureGroups) := by
  refine ⟨by decide, by decide, by decide⟩

/-- C9 (amended): the `tenure_group` and `monthly_charge_segment` checks
pass iff every value of the closed enumeration is observed (a coverage
check, the converse inclusion); only the `contract_type_code` check passes
iff the observed values are a subset of its allowed set; and the report
always carries all three checks, none gated on another. -/
theorem telco_checks_amended (df : List TelcoRow) :
    validateTelco df = ⟨tenureGroupCheck df, chargeSegmentCheck df, contractCodeCheck df⟩ ∧
    (tenureGroupCheck df = true ↔
      ∀ g ∈ expectedTenureGroups, g ∈ observedStr TelcoRow.tenure_group df) ∧
    (chargeSegmentCheck df = true ↔
      ∀ g ∈ expectedChargeSegments, g ∈ observedStr TelcoRow.monthly_charge_segment df) ∧
    (contractCodeCheck df = true ↔
      ∀ c ∈ df.filterMap TelcoRow.contract_type_code, c ∈ allowedContractCodes) := by
  refine ⟨rfl, ?_, ?_, ?_⟩
  · simp [tenureGroupCheck, List.all_eq_true]
  · simp [chargeSegmentCheck, List.all_eq_true]
  · unfold contractCodeCheck
    rw [List.all_eq_true]
    constructor
    · intro hall c hc
      simpa using hall c hc
    · intro hall c hc
      simpa using hall c hc

/-! ## C5: pipeline abort behaviour -/

/-- C5 (counterexample): with an empty staged dataset the load step returns
no report and the pipeline continues into the analysis stage — the run is
not aborted, refuting the claim for the empty-staged-dataset case. -/
theorem empty_staged_continues_cex :
    (normalizeForInsert emptyStagedDF).rows.length = 0 ∧
    runFullPipeline envEmptyStaged 200 2 = ⟨true, true, true, true, false⟩ := by
  refine ⟨rfl, rfl⟩

/-- C5 (amended): an extraction failure, a transform failure, a missing
staged CSV, and an unreachable sink (with nonempty staged data) each abort
the run with no later stage executing; but an empty staged dataset does
not abort — the load step returns normally without a report and the
analysis stage still runs. -/
theorem pipeline_abort_behaviour (env : PipelineEnv) (bsz rc : Nat) :
    (∀ e, env.extractOutcome = .error e →
      runFullPipeline env bsz rc = ⟨true, false, false, false, true⟩) ∧
    (∀ x e, env.extractOutcome = .ok x → env.transformOutcome = .error e →
      runFullPipeline env bsz rc = ⟨true, true, false, false, true⟩) ∧
    (∀ x, env.extractOutcome = .ok x → env.transformOutcome = .ok none →
      runFullPipeline env bsz rc = ⟨true, true, true, false, true⟩) ∧
    (∀ x p df e, env.extractOutcome = .ok x → env.transformOutcome = .ok (some p) →
      env.loadEnv.stagedRead = some df → (normalizeForInsert df).rows.length ≠ 0 →
      env.loadEnv.sinkInit = .error e →
      runFullPipeline env bsz rc = ⟨true, true, true, false, true⟩) ∧
    (∀ x p df, env.extractOutcome = .ok x → env.transformOutcome = .ok (some p) →
      env.loadEnv.stagedRead = some df → (normalizeForInsert df).rows.length = 0 →
      (runFullPipeline env bsz rc).analysisRan = true) := by
  refine ⟨?_, ?_, ?_, ?_, ?_⟩
  · intro e he
    simp [runFullPipeline, he]
  · intro x e hx ht
    simp [runFullPipeline, hx, ht]
  · intro x hx ht
    simp [runFullPipeline, hx, ht, runLoad]
  · intro x p df e hx ht hr hn hs
    simp [runFullPipeline, hx, ht, runLoad, loadToSupabase, hr, hn, hs]
  · intro x p df hx ht hr hn
    simp [runFullPipeline, hx, ht, runLoad, loadToSupabase, hr, hn]
    cases env.analysisOutcome <;> simp

/-- C5 witness: the amended theorem applied at four concrete runs. -/
theorem pipeline_abort_behaviour_witness :
    runFullPipeline envExtractFail 200 2 = ⟨true, false, false, false, true⟩ ∧
    runFullPipeline envNoStaged 200 2 = ⟨true, true, true, false, true⟩ ∧
    runFullPipeline envSinkDown 200 2 = ⟨true, true, true, false, true⟩ ∧
    (runFullPipeline envEmptyStaged 200 2).analysisRan = true :=
  ⟨(pipeline_abort_behaviour envExtractFail 200 2).1 "extract failed" rfl,
   (pipeline_abort_behaviour envNoStaged 200 2).2.2.1 [] rfl rfl,
   (pipeline_abort_behaviour envSinkDown 200 2).2.2.2.1 [] "staged.csv" oneRowDF
     "sink down" rfl rfl rfl (by decide) rfl,
   (pipeline_abort_behaviour envEmptyStaged 200 2).2.2.2.2 [] "staged.csv" emptyStagedDF
     rfl rfl rfl rfl⟩

/-! ## C6: one outcome per entity -/

theorem fetchCity_result (o : CityOracle) (mr : Nat) (city : String) :
    (fetchCity o mr city).result =
      match (primaryLoop o.primary 1 mr).payload with
      | some _ => .ok ⟨city, some "OpenAQ"⟩
      | none => fallbackOutcome o city := by
  cases hp : (primaryLoop o.primary 1 mr).payload with
  | some d => simp [fetchCity, hp]
  | none =>
    cases hf : o.fallback with
    | error e => simp [fetchCity, fallbackOutcome, hp, hf]
    | ok v => cases v <;> simp [fetchCity, fallbackOutcome, hp, hf]

/-- C6 (counterexample): a network exception during the fallback call
propagates out of `fetch_city`, so `fetch_all` raises: the entity gets
neither a snapshot nor a recorded failure, refuting the claim that every
entity resolves to exactly one outcome. -/
theorem fetchAll_fallback_exception_cex :
    fetchAll (fun _ => downOracle) 3 ["Delhi"] = .error "timeout" ∧
    isOkE (fetchAll (fun _ => downOracle) 3 ["Delhi"]) = false := by
  refine ⟨by decide, by decide⟩

/-- C6 (amended): provided no fallback call raises a network exception
(fallback failures manifest as non-200 responses, which `call_open_meteo`
maps to `None`), `fetch_all` returns exactly one outcome per entity, in
order: a snapshot tagged with its source, or a recorded failure with
`source = None` when both sources failed. -/
theorem fetchAll_one_outcome_per_entity (oracles : String → CityOracle) (mr : Nat)
    (cities : List String) (h : ∀ c ∈ cities, isOkE (oracles c).fallback = true) :
    ∃ rs : List FetchResult, fetchAll oracles mr cities = .ok rs ∧
      rs.map FetchResult.city = cities := by
  induction cities with
  | nil => exact ⟨[], rfl, rfl⟩
  | cons c rest ih =>
    have hc := h c (List.mem_cons_self _ _)
    have hfc : ∃ r : FetchResult, (fetchCity (oracles c) mr c).result = .ok r ∧
        r.city = c := by
      rw [fetchCity_result]
      cases hp : (primaryLoop (oracles c).primary 1 mr).payload with
      | some d => exact ⟨⟨c, some "OpenAQ"⟩, rfl, rfl⟩
      | none =>
        cases hf : (oracles c).fallback with
        | error e => rw [hf] at hc; simp [isOkE] at hc
        | ok v =>
          cases v with
          | none => exact ⟨⟨c, none⟩, by simp [fallbackOutcome, hf], rfl⟩
          | some p => exact ⟨⟨c, some "Open-Meteo"⟩, by simp [fallbackOutcome, hf], rfl⟩
    obtain ⟨r, hr, hrc⟩ := hfc
    obtain ⟨rs, hrs, hmap⟩ := ih fun c' hc' => h c' (List.mem_cons_of_mem _ hc')
    refine ⟨r :: rs, ?_, by simp [hmap, hrc]⟩
    simp [fetchAll, hr, hrs]

/-- C6 witness: the amended theorem at two cities whose primary always
raises and whose fallback returns a non-200 response. -/
theorem fetchAll_one_outcome_per_entity_witness :
    (∀ c ∈ ["Delhi", "Mumbai"], isOkE ((fun _ => bothFailOracle) c).fallback = true) ∧
    (∃ rs : List FetchResult,
      fetchAll (fun _ => bothFailOracle) 3 ["Delhi", "Mumbai"] = .ok rs ∧
      rs.map FetchResult.city = ["Delhi", "Mumbai"]) :=
  ⟨by decide,
   fetchAll_one_outcome_per_entity (fun _ => bothFailOracle) 3 ["Delhi", "Mumbai"]
     (by decide)⟩

/-! ## C3: empty 2xx responses and the primary retry loop -/

theorem primaryLoop_all_fail (primary : Nat → Except String Resp) :
    ∀ (fuel a : Nat), (∀ k ∈ List.range' a fuel, noSuccessB (primary k) = true) →
      (primaryLoop primary a fuel).attempts = fuel ∧
      (primaryLoop primary a fuel).payload = none := by
  intro fuel
  induction fuel with
  | zero => intro a _; exact ⟨rfl, rfl⟩
  | succ f ih =>
    intro a h
    have ha : noSuccessB (primary a) = true := h a (by simp [List.range'])
    have hrest : ∀ k ∈ List.range' (a + 1) f, noSuccessB (primary k) = true := by
      intro k hk
      exact h k (by simp [List.range', hk])
    obtain ⟨h1, h2⟩ := ih (a + 1) hrest
    cases hp : primary a with
    | error e =>
      have heq : primaryLoop primary a (f + 1) =
          ⟨(primaryLoop primary (a + 1) f).attempts + 1,
           2 ^ (a - 1) :: (primaryLoop primary (a + 1) f).waits,
           (primaryLoop primary (a + 1) f).payload⟩ := by
        conv_lhs => unfold primaryLoop
        rw [hp]
      rw [heq]
      exact ⟨by simp [h1], by simp [h2]⟩
    | ok r =>
      have hcall : callOpenaqV3 r = none := by
        rw [hp] at ha
        simpa [noSuccessB, Option.isNone_iff_eq_none] using ha
      have heq : primaryLoop primary a (f + 1) =
          ⟨(primaryLoop primary (a + 1) f).attempts + 1,
           2 ^ (a - 1) :: (primaryLoop primary (a + 1) f).waits,
           (primaryLoop primary (a + 1) f).payload⟩ := by
        conv_lhs => unfold primaryLoop
        rw [hp]
        simp [hcall]
      rw [heq]
      exact ⟨by simp [h1], by simp [h2]⟩

/-- C3 (counterexample): with every primary attempt answering 200 with an
empty `results` list, `fetch_city` still consumes all three primary
attempts before moving to the fallback — it does not stop retrying the
primary after the first empty 2xx response. -/
theorem empty200_keeps_retrying_cex :
    callOpenaqV3 emptyOkResp = none ∧
    emptyOkResp.status = 200 ∧
    (fetchCity em200Oracle 3 "Delhi").primaryAttempts = 3 ∧
    ¬((fetchCity em200Oracle 3 "Delhi").primaryAttempts = 1) ∧
    (fetchCity em200Oracle 3 "Delhi").result = .ok ⟨"Delhi", some "Open-Meteo"⟩ := by
  refine ⟨by decide, rfl, by decide, by decide, by decide⟩

/-- C3 (amended): `call_openaq_v3` maps a 2xx response with empty results to
`None`, indistinguishable from an error, and `fetch_city` treats it as a
failed attempt: when every primary attempt yields no data (empty 200s or
errors alike), all `MAX_RETRIES` primary attempts are consumed before the
fallback is consulted. -/
theorem empty200_consumes_all_retries (o : CityOracle) (mr : Nat) (city : String)
    (h : ∀ k ∈ List.range' 1 mr, noSuccessB (o.primary k) = true) :
    (fetchCity o mr city).primaryAttempts = mr ∧
    (fetchCity o mr city).result = fallbackOutcome o city := by
  obtain ⟨h1, h2⟩ := primaryLoop_all_fail o.primary mr 1 h
  cases hf : o.fallback with
  | error e => constructor <;> simp [fetchCity, fallbackOutcome, h1, h2, hf]
  | ok v => cases v <;> (constructor <;> simp [fetchCity, fallbackOutcome, h1, h2, hf])

/-- C3 witness: the amended theorem at the all-empty-200 network. -/
theorem empty200_consumes_all_retries_witness :
    (∀ k ∈ List.range' 1 3, noSuccessB (em200Oracle.primary k) = true) ∧
    ((fetchCity em200Oracle 3 "Delhi").primaryAttempts = 3 ∧
     (fetchCity em200Oracle 3 "Delhi").result = fallbackOutcome em200Oracle "Delhi") :=
  ⟨by decide, empty200_consumes_all_retries em200Oracle 3 "Delhi" (by decide)⟩

/-! ## C4: retry bounds and the backoff ladder -/

theorem range_map_pow_cons (a n : Nat) (ha : 1 ≤ a) :
    2 ^ (a - 1) :: (List.range n).map (fun i => 2 ^ (a + 1 - 1 + i)) =
      (List.range (n + 1)).map (fun i => 2 ^ (a - 1 + i)) := by
  rw [List.range_succ_eq_map]
  simp only [List.map_cons, List.map_map, Function.comp_def]
  refine List.cons_eq_cons.mpr ⟨by simp, ?_⟩
  refine List.map_congr_left ?_
  intro i _
  congr 1
  omega

theorem primaryLoop_bounds (primary : Nat → Except String Resp) :
    ∀ (fuel a : Nat), 1 ≤ a →
      (primaryLoop primary a fuel).attempts ≤ fuel ∧
      (primaryLoop primary a fuel).waits =
        (List.range (primaryLoop primary a fuel).waits.length).map
          (fun i => 2 ^ (a - 1 + i)) := by
  intro fuel
  induction fuel with
  | zero => intro a _; exact ⟨Nat.le_refl 0, rfl⟩
  | succ f ih =>
    intro a ha
    cases hp : primary a with
    | ok r =>
      cases hc : callOpenaqV3 r with
      | some d =>
        have heq : primaryLoop primary a (f + 1) = ⟨1, [], some d⟩ := by
          conv_lhs => unfold primaryLoop
          rw [hp]
          simp [hc]
        rw [heq]
        exact ⟨by show (1 : Nat) ≤ f + 1; omega, by simp⟩
      | none =>
        obtain ⟨h1, h2⟩ := ih (a + 1) (by omega)
        have heq : primaryLoop primary a (f + 1) =
            ⟨(primaryLoop primary (a + 1) f).attempts + 1,
             2 ^ (a - 1) :: (primaryLoop primary (a + 1) f).waits,
             (primaryLoop primary (a + 1) f).payload⟩ := by
          conv_lhs => unfold primaryLoop
          rw [hp]
          simp [hc]
        rw [heq]
        refine ⟨by simpa using Nat.succ_le_succ h1, ?_⟩
        show 2 ^ (a - 1) :: (primaryLoop primary (a + 1) f).waits =
          (List.range
            (2 ^ (a - 1) :: (primaryLoop primary (a + 1) f).waits).length).map
            (fun i => 2 ^ (a - 1 + i))
        rw [List.length_cons]
        conv_lhs => rw [h2]
        exact range_map_pow_cons a _ ha
    | error e =>
      obtain ⟨h1, h2⟩ := ih (a + 1) (by omega)
      have heq : primaryLoop primary a (f + 1) =
          ⟨(primaryLoop primary (a + 1) f).attempts + 1,
           2 ^ (a - 1) :: (primaryLoop primary (a + 1) f).waits,
           (primaryLoop primary (a + 1) f).payload⟩ := by
        conv_lhs => unfold primaryLoop
        rw [hp]
      rw [heq]
      refine ⟨by simpa using Nat.succ_le_succ h1, ?_⟩
      show 2 ^ (a - 1) :: (primaryLoop primary (a + 1) f).waits =
        (List.range
          (2 ^ (a - 1) :: (primaryLoop primary (a + 1) f).waits).length).map
          (fun i => 2 ^ (a - 1 + i))
      rw [List.length_cons]
      conv_lhs => rw [h2]
      exact range_map_pow_cons a _ ha

theorem batchLoop_bounds (sink : Nat → Bool) :
    ∀ (fuel a : Nat), 1 ≤ a →
      (batchLoop sink a fuel).attempts ≤ fuel ∧
      (batchLoop sink a fuel).waits =
        (List.range (batchLoop sink a fuel).waits.length).map
          (fun i => 2 ^ (a - 1 + i)) := by
  intro fuel
  induction fuel with
  | zero => intro a _; exact ⟨Nat.le_refl 0, rfl⟩
  | succ f ih =>
    intro a ha
    by_cases hs : sink a
    · have heq : batchLoop sink a (f + 1) = ⟨1, [], true⟩ := by
        conv_lhs => unfold batchLoop
        rw [if_pos hs]
      rw [heq]
      exact ⟨by show (1 : Nat) ≤ f + 1; omega, by simp⟩
    · cases f with
      | zero =>
        have heq : batchLoop sink a 1 = ⟨1, [], false⟩ := by
          conv_lhs => unfold batchLoop
          rw [if_neg hs, if_pos rfl]
        rw [heq]
        exact ⟨by show (1 : Nat) ≤ 0 + 1; omega, by simp⟩
      | succ f' =>
        obtain ⟨h1, h2⟩ := ih (a + 1) (by omega)
        have heq : batchLoop sink a (f' + 1 + 1) =
            ⟨(batchLoop sink (a + 1) (f' + 1)).attempts + 1,
             2 ^ (a - 1) :: (batchLoop sink (a + 1) (f' + 1)).waits,
             (batchLoop sink (a + 1) (f' + 1)).success⟩ := by
          conv_lhs => unfold batchLoop
          rw [if_neg hs, if_neg (by omega : ¬(f' + 1 = 0))]
        rw [heq]
        refine ⟨by simpa using Nat.succ_le_succ h1, ?_⟩
        show 2 ^ (a - 1) :: (batchLoop sink (a + 1) (f' + 1)).waits =
          (List.range
            (2 ^ (a - 1) :: (batchLoop sink (a + 1) (f' + 1)).waits).length).map
            (fun i => 2 ^ (a - 1 + i))
        rw [List.length_cons]
        conv_lhs => rw [h2]
        exact range_map_pow_cons a _ ha

theorem fetchCity_fields (o : CityOracle) (mr : Nat) (city : String) :
    (fetchCity o mr city).primaryAttempts = (primaryLoop o.primary 1 mr).attempts ∧
    (fetchCity o mr city).primaryWaits = (primaryLoop o.primary 1 mr).waits := by
  cases hp : (primaryLoop o.primary 1 mr).payload with
  | some d => constructor <;> simp [fetchCity, hp]
  | none =>
    cases hf : o.fallback with
    | error e => constructor <;> simp [fetchCity, hp, hf]
    | ok v => cases v <;> (constructor <;> simp [fetchCity, hp, hf])

/-- C4: the extractor makes at most `MAX_RETRIES ≤ MAX_RETRIES + 1` primary
attempts before falling back and the loader makes at most
`RETRY_COUNT + 1` attempts before recording the batch as failed, and in
both loops the wait after the `(i+1)`-st failed attempt is
`base * 2 ^ i` with `base = 1` (attempt 1-indexed). -/
theorem retry_bound_and_backoff (o : CityOracle) (mr : Nat) (city : String)
    (sink : Nat → Bool) (rc : Nat) :
    (fetchCity o mr city).primaryAttempts ≤ mr + 1 ∧
    (fetchCity o mr city).primaryWaits =
      (List.range (fetchCity o mr city).primaryWaits.length).map (fun i => 1 * 2 ^ i) ∧
    (batchLoop sink 1 (rc + 1)).attempts ≤ rc + 1 ∧
    (batchLoop sink 1 (rc + 1)).waits =
      (List.range (batchLoop sink 1 (rc + 1)).waits.length).map (fun i => 1 * 2 ^ i) := by
  obtain ⟨ha, hw⟩ := fetchCity_fields o mr city
  obtain ⟨h1, h2⟩ := primaryLoop_bounds o.primary mr 1 (Nat.le_refl 1)
  obtain ⟨h3, h4⟩ := batchLoop_bounds sink (rc + 1) 1 (Nat.le_refl 1)
  refine ⟨by omega, ?_, h3, ?_⟩
  · rw [hw, h2]
    simp
  · rw [h4]
    simp

/-! ## C2: the LoadReport is an exact partition -/

theorem prepBatch_length (b : List Rec) : (prepBatch b).length = b.length := by
  simp [prepBatch, normalizeRecordTypes]

theorem chunks_flatten (bsz : Nat) (hb : 0 < bsz) :
    ∀ l : List Rec, (chunks bsz l).flatten = l := by
  suffices H : ∀ n, ∀ l : List Rec, l.length = n → (chunks bsz l).flatten = l by
    intro l
    exact H l.length l rfl
  intro n
  induction n using Nat.strong_induction_on with
  | _ n ih =>
    intro l hn
    rw [chunks]
    split
    · next hcase =>
      rcases hcase with h1 | h1
      · simp [h1]
      · omega
    · next hcase =>
      push_neg at hcase
      have hl : 0 < l.length := List.length_pos.mpr hcase.1
      have hlt : (l.drop bsz).length < n := by
        simp only [List.length_drop]
        omega
      simp only [List.flatten_cons]
      rw [ih _ hlt (l.drop bsz) rfl]
      exact List.take_append_drop bsz l

theorem chunks_shape (bsz : Nat) (hb : 0 < bsz) :
    ∀ l : List Rec, ∀ b ∈ chunks bsz l, b ≠ [] ∧ b.length ≤ bsz := by
  suffices H : ∀ n, ∀ l : List Rec, l.length = n →
      ∀ b ∈ chunks bsz l, b ≠ [] ∧ b.length ≤ bsz by
    intro l
    exact H l.length l rfl
  intro n
  induction n using Nat.strong_induction_on with
  | _ n ih =>
    intro l hn b hmem
    rw [chunks] at hmem
    split at hmem
    · exact absurd hmem (List.not_mem_nil b)
    · next hcase =>
      push_neg at hcase
      have hl : 0 < l.length := List.length_pos.mpr hcase.1
      have hlt : (l.drop bsz).length < n := by
        simp only [List.length_drop]
        omega
      rcases List.mem_cons.mp hmem with h | h
      · subst h
        constructor
        · intro hc
          have := congrArg List.length hc
          simp only [List.length_take, List.length_nil] at this
          omega
        · simp only [List.length_take]
          omega
      · exact ih _ hlt (l.drop bsz) rfl b h

theorem chunks_dropLast (bsz : Nat) (hb : 0 < bsz) :
    ∀ l : List Rec, ∀ b ∈ (chunks bsz l).dropLast, b.length = bsz := by
  suffices H : ∀ n, ∀ l : List Rec, l.length = n →
      ∀ b ∈ (chunks bsz l).dropLast, b.length = bsz by
    intro l
    exact H l.length l rfl
  intro n
  induction n using Nat.strong_induction_on with
  | _ n ih =>
    intro l hn b hmem
    rw [chunks] at hmem
    split at hmem
    · simp at hmem
    · next hcase =>
      push_neg at hcase
      have hl : 0 < l.length := List.length_pos.mpr hcase.1
      have hlt : (l.drop bsz).length < n := by
        simp only [List.length_drop]
        omega
      rcases hrec : chunks bsz (l.drop bsz) with _ | ⟨c, cs⟩
      · rw [hrec] at hmem
        simp at hmem
      · rw [hrec] at hmem
        have hmem' : b = l.take bsz ∨ b ∈ (c :: cs).dropLast := by
          simpa [List.dropLast] using hmem
        rcases hmem' with h | h
        · subst h
          have hdrop : l.drop bsz ≠ [] := by
            intro hc
            rw [chunks] at hrec
            rw [dif_pos (Or.inl hc)] at hrec
            exact List.noConfusion hrec
          have hgt : bsz < l.length := by
            by_contra hle
            push_neg at hle
            exact hdrop (List.drop_eq_nil_of_le hle)
          simp only [List.length_take]
          omega
        · rw [← hrec] at h
          exact ih _ hlt (l.drop bsz) rfl b h

theorem runBatches_eq (sink : Nat → Nat → Bool) (rc : Nat)
    (bs : List (Nat × List Rec)) :
    (runBatches sink rc bs).1 =
      ((bs.filter fun p => (batchLoop (sink p.1) 1 (rc + 1)).success).map
        (fun p => p.2.length)).sum ∧
    (runBatches sink rc bs).2 =
      (bs.filter fun p => !(batchLoop (sink p.1) 1 (rc + 1)).success).map
        (fun p => ⟨p.1, p.2.length⟩) := by
  induction bs with
  | nil => exact ⟨rfl, rfl⟩
  | cons p rest ih =>
    obtain ⟨bno, b⟩ := p
    by_cases hs : (batchLoop (sink bno) 1 (rc + 1)).success
    · constructor <;>
        simp [runBatches, hs, ih.1, ih.2, prepBatch_length]
    · constructor <;>
        simp [runBatches, hs, ih.1, ih.2, prepBatch_length]

theorem sum_filter_split (bs : List (Nat × List Rec)) (q : Nat × List Rec → Bool) :
    ((bs.filter q).map (fun p => p.2.length)).sum +
      ((bs.filter fun p => !q p).map (fun p => p.2.length)).sum =
    (bs.map fun p => p.2.length).sum := by
  induction bs with
  | nil => rfl
  | cons p rest ih =>
    by_cases hq : q p
    · simp only [List.filter_cons, hq, Bool.not_true, if_pos, List.map_cons, List.sum_cons,
        if_neg, Bool.false_eq_true, not_false_eq_true, ite_false, ite_true]
      omega
    · have hq' : q p = false := by simpa using hq
      simp only [List.filter_cons, hq', Bool.not_false, List.map_cons, List.sum_cons,
        Bool.false_eq_true, if_false, if_true, ite_false, ite_true]
      omega

theorem numberFrom_sizes (n : Nat) (bs : List (List Rec)) :
    (numberFrom n bs).map (fun p => p.2.length) = bs.map List.length := by
  induction bs generalizing n with
  | nil => rfl
  | cons b rest ih => simp [numberFrom, ih]

theorem enumBatches_sizes (bs : List (List Rec)) :
    (enumBatches bs).map (fun p => p.2.length) = bs.map List.length :=
  numberFrom_sizes 1 bs

/-- C2: partitioning `load_to_supabase` does over the staged rows is exact:
the batches are contiguous slices of at most `bsz` rows (all but the last
exactly `bsz`, none empty) whose concatenation is the input; `inserted` is
the sum of the row counts of exactly the terminally successful batches;
the failed-batches list is exactly the exhausted batches in order; every
batch lands in exactly one of the two, never both and never neither, and a
failed batch never stops later batches from being processed; inserted plus
the failed sizes accounts for every row. -/
theorem load_report_partitions (recs : List Rec) (bsz rc : Nat)
    (sink : Nat → Nat → Bool) (hb : 0 < bsz) :
    loadPartitionSpec recs bsz rc sink := by
  obtain ⟨hfst, hsnd⟩ := runBatches_eq sink rc (enumBatches (chunks bsz recs))
  refine ⟨chunks_flatten bsz hb recs, chunks_shape bsz hb recs,
    chunks_dropLast bsz hb recs, rfl, hfst, hsnd, ?_, ?_⟩
  · show (runBatches sink rc (enumBatches (chunks bsz recs))).1 +
      ((runBatches sink rc (enumBatches (chunks bsz recs))).2.map FailedBatch.size).sum =
      recs.length
    rw [hfst, hsnd]
    have hmap : (((enumBatches (chunks bsz recs)).filter fun p =>
        !(batchLoop (sink p.1) 1 (rc + 1)).success).map
          (fun p => (⟨p.1, p.2.length⟩ : FailedBatch))).map FailedBatch.size =
        ((enumBatches (chunks bsz recs)).filter fun p =>
          !(batchLoop (sink p.1) 1 (rc + 1)).success).map (fun p => p.2.length) := by
      simp [List.map_map, Function.comp_def]
    rw [hmap, sum_filter_split, enumBatches_sizes]
    have := chunks_flatten bsz hb recs
    calc ((chunks bsz recs).map List.length).sum
        = ((chunks bsz recs).flatten).length := (List.length_flatten _).symm
      _ = recs.length := by rw [this]
  · intro p hp
    by_cases hs : (batchLoop (sink p.1) 1 (rc + 1)).success
    · refine Or.inl ⟨hs, ?_⟩
      show p.1 ∉ ((runBatches sink rc (enumBatches (chunks bsz recs))).2).map
        FailedBatch.batch
      rw [hsnd]
      intro hcon
      simp only [List.map_map, List.mem_map, Function.comp_def, List.mem_filter] at hcon
      obtain ⟨q, ⟨hq1, hq2⟩, hq3⟩ := hcon
      rw [hq3] at hq2
      rw [hs] at hq2
      simp at hq2
    · refine Or.inr ⟨by simpa using hs, ?_⟩
      show p.1 ∈ ((runBatches sink rc (enumBatches (chunks bsz recs))).2).map
        FailedBatch.batch
      rw [hsnd]
      simp only [List.map_map, List.mem_map, Function.comp_def, List.mem_filter]
      exact ⟨p, ⟨hp, by simpa using hs⟩, rfl⟩

/-- C2 witness: the partition theorem at five records, batch size 2,
one retry, with batch 2 failing terminally. -/
theorem load_report_partitions_witness :
    0 < 2 ∧ loadPartitionSpec recsW 2 1 sinkW :=
  ⟨by decide, load_report_partitions recsW 2 1 sinkW (by decide)⟩

/-! ## C10: the records handed to the sink insert call -/

theorem defensiveClean_keys (r : Rec) :
    (defensiveClean r).map Prod.fst = r.map Prod.fst := by
  simp [defensiveClean]

theorem defensiveClean_ne_cnan (r : Rec) :
    ∀ kv ∈ defensiveClean r, kv.2 ≠ Cell.cnan := by
  intro kv hkv
  simp only [defensiveClean, List.mem_map] at hkv
  obtain ⟨kv₀, _, rfl⟩ := hkv
  by_cases h : kv₀.2 = Cell.cnan <;> simp [h]

theorem normalizeValue_ne_cnan (v : Cell) (h : v ≠ Cell.cnan) :
    normalizeValue v ≠ Cell.cnan := by
  cases v
  case cnan => exact absurd rfl h
  case npFloat q => by_cases hq : q.den = 1 <;> simp [normalizeValue, hq]
  all_goals simp [normalizeValue]

theorem foldl_normalizeRecord_generic (r : Rec) :
    ∀ acc : Rec,
      ((r.map Prod.fst).Nodup) →
      (∀ k ∈ r.map Prod.fst, lowerStr k = k) →
      (∀ k ∈ r.map Prod.fst, k ∉ acc.map Prod.fst) →
      r.foldl (fun acc kv => dictInsert (lowerStr kv.1) (normalizeValue kv.2) acc) acc =
        acc ++ r.map fun kv => (kv.1, normalizeValue kv.2) := by
  induction r with
  | nil => intro acc _ _ _; simp
  | cons kv rest ih =>
    intro acc hnd hl hdisj
    have hk : lowerStr kv.1 = kv.1 := hl kv.1 (by simp)
    have hnd' : (kv.1 :: rest.map Prod.fst).Nodup := by simpa using hnd
    have hnotin : kv.1 ∉ acc.map Prod.fst := hdisj kv.1 (by simp)
    simp only [List.foldl_cons, hk]
    rw [dictInsert_of_not_mem _ _ _ hnotin]
    have hrest := ih (acc ++ [(kv.1, normalizeValue kv.2)])
      (List.nodup_cons.mp hnd').2
      (fun k hkm => hl k (by simp [hkm]))
      (by
        intro k hkmem
        simp only [List.map_append, List.map_cons, List.map_nil, List.mem_append,
          List.mem_singleton]
        push_neg
        refine ⟨hdisj k (by simp [hkmem]), ?_⟩
        intro hc
        exact (List.nodup_cons.mp hnd').1 (hc ▸ hkmem))
    rw [hrest]
    simp

theorem normalizeRecord_map_form (r : Rec) (hnd : (r.map Prod.fst).Nodup)
    (hl : ∀ k ∈ r.map Prod.fst, lowerStr k = k) :
    normalizeRecord r = r.map fun kv => (kv.1, normalizeValue kv.2) := by
  have h := foldl_normalizeRecord_generic r [] hnd hl (by simp)
  unfold normalizeRecord
  simpa using h

theorem expectedCols_nodup : expectedCols.Nodup := by decide

theorem expectedCols_lowerFixed : ∀ k ∈ expectedCols, lowerStr k = k := by decide

theorem chunks_subset (bsz : Nat) :
    ∀ l : List Rec, ∀ b ∈ chunks bsz l, ∀ x ∈ b, x ∈ l := by
  suffices H : ∀ n, ∀ l : List Rec, l.length = n →
      ∀ b ∈ chunks bsz l, ∀ x ∈ b, x ∈ l by
    intro l
    exact H l.length l rfl
  intro n
  induction n using Nat.strong_induction_on with
  | _ n ih =>
    intro l hn b hmem x hx
    rw [chunks] at hmem
    split at hmem
    · exact absurd hmem (List.not_mem_nil b)
    · next hcase =>
      push_neg at hcase
      have hl : 0 < l.length := List.length_pos.mpr hcase.1
      have hbsz : 0 < bsz := Nat.pos_of_ne_zero hcase.2
      rcases List.mem_cons.mp hmem with h | h
      · exact List.take_subset bsz l (h ▸ hx)
      · have hlt : (l.drop bsz).length < n := by
          simp only [List.length_drop]
          omega
        exact List.drop_subset bsz l (ih _ hlt (l.drop bsz) rfl b h x hx)

theorem selectCols_rows (cs : List String) (d : DFrame) (r' : Rec)
    (h : r' ∈ (selectCols cs d).rows) :
    ∃ r ∈ d.rows, r' = cs.map fun c => (c, lookupCell r c) := by
  simp only [selectCols, List.mem_map] at h
  obtain ⟨r, hr, heq⟩ := h
  exact ⟨r, hr, heq.symm⟩

theorem lookupCell_map_self (cs : List String) (g : String → Cell) (c : String)
    (hc : c ∈ cs) : lookupCell (cs.map fun x => (x, g x)) c = g c := by
  induction cs with
  | nil => simp at hc
  | cons x xs ih =>
    by_cases hx : (x == c) = true
    · have hxc : x = c := by simpa using hx
      subst hxc
      unfold lookupCell
      rw [List.map_cons, List.find?_cons_of_pos _ (by simpa using hx)]
      rfl
    · have hcm : c ∈ xs := by
        rcases List.mem_cons.mp hc with h | h
        · exact absurd (by simp [h]) hx
        · exact h
      unfold lookupCell at ih ⊢
      rw [List.map_cons, List.find?_cons_of_neg _ (by simpa using hx)]
      exact ih hcm

theorem lookupCell_of_allNull (r : Rec) (c : String)
    (h : ∀ kv ∈ r, kv.1 = c → kv.2 = Cell.cnull) : lookupCell r c = Cell.cnull := by
  unfold lookupCell
  cases hf : r.find? fun kv => kv.1 == c with
  | none => rfl
  | some kv =>
    have hm := List.mem_of_find?_eq_some hf
    have hp := List.find?_some hf
    simp only [beq_iff_eq] at hp
    simp [h kv hm hp]

theorem renameCols_wf (f : String → String) (d : DFrame)
    (hwf : ∀ r ∈ d.rows, r.map Prod.fst = d.cols) :
    ∀ r ∈ (renameCols f d).rows, r.map Prod.fst = (renameCols f d).cols := by
  intro r' hr'
  simp only [renameCols, List.mem_map] at hr'
  obtain ⟨r, hr, rfl⟩ := hr'
  have h1 : (r.map fun kv => (f kv.1, kv.2)).map Prod.fst = (r.map Prod.fst).map f := by
    simp [List.map_map, Function.comp_def]
  show (r.map fun kv => (f kv.1, kv.2)).map Prod.fst = d.cols.map f
  rw [h1, hwf r hr]

theorem foldl_addMissing_rows (cols₀ : List String) :
    ∀ d : DFrame, ∀ r' ∈ (cols₀.foldl addMissingCol d).rows,
      ∃ r ∈ d.rows, ∃ cs : List String, r' = r ++ cs.map fun c => (c, Cell.cnull) := by
  induction cols₀ with
  | nil =>
    intro d r' hr'
    exact ⟨r', hr', [], by simp⟩
  | cons c cs ih =>
    intro d r' hr'
    rw [List.foldl_cons] at hr'
    obtain ⟨r'', hr'', cs', heq⟩ := ih (addMissingCol d c) r' hr'
    by_cases hc : c ∈ d.cols
    · refine ⟨r'', ?_, cs', heq⟩
      simpa [addMissingCol, hc] using hr''
    · simp only [addMissingCol, if_neg hc, List.mem_map] at hr''
      obtain ⟨r, hr, rfl⟩ := hr''
      exact ⟨r, hr, c :: cs', by simp [heq]⟩

theorem fold_mapCol_pres (P : Rec → Prop)
    (hstep : ∀ (c : String) (r : Rec), P r →
      P (r.map fun kv => if kv.1 = c then (kv.1, toNumericCell kv.2) else kv)) :
    ∀ (cs : List String) (d : DFrame),
      (∀ r ∈ d.rows, P r) →
      ∀ r' ∈ (cs.foldl
          (fun d c => if c ∈ d.cols then mapCol c toNumericCell d else d) d).rows,
        P r' := by
  intro cs
  induction cs with
  | nil => intro d hd r' hr'; exact hd r' hr'
  | cons c cs ih =>
    intro d hd r' hr'
    rw [List.foldl_cons] at hr'
    refine ih _ ?_ r' hr'
    by_cases hc : c ∈ d.cols
    · intro r hr
      simp only [if_pos hc, mapCol, List.mem_map] at hr
      obtain ⟨r₀, hr₀, rfl⟩ := hr
      exact hstep c r₀ (hd r₀ hr₀)
    · intro r hr
      rw [if_neg hc] at hr
      exact hd r hr

theorem mapCells_mem (f : Cell → Cell) (d : DFrame) (r' : Rec)
    (h : r' ∈ (mapCells f d).rows) :
    ∃ r ∈ d.rows, r' = r.map fun kv => (kv.1, f kv.2) := by
  simp only [mapCells, List.mem_map] at h
  obtain ⟨r, hr, heq⟩ := h
  exact ⟨r, hr, heq.symm⟩

theorem toNumeric_missing (v : Cell) (h : v = Cell.cnull ∨ v = Cell.cnan) :
    toNumericCell v = Cell.cnull ∨ toNumericCell v = Cell.cnan := by
  rcases h with h | h <;> subst h <;> simp [toNumericCell]

theorem timeFn_missing (v : Cell) (h : v = Cell.cnull ∨ v = Cell.cnan) :
    isoApplyCell (toDatetimeCell v) = Cell.cnull := by
  rcases h with h | h <;> subst h <;> rfl

theorem whereNotNull_missing (v : Cell) (h : v = Cell.cnull ∨ v = Cell.cnan) :
    whereNotNullCell v = Cell.cnull := by
  rcases h with h | h <;> subst h <;> rfl

theorem normalizeRecord_clean_map (g : String → Cell) :
    normalizeRecord (defensiveClean (expectedCols.map fun c => (c, g c))) =
      expectedCols.map fun c =>
        (c, normalizeValue (if g c = Cell.cnan then Cell.cnull else g c)) := by
  have hclean : defensiveClean (expectedCols.map fun c => (c, g c)) =
      expectedCols.map fun c => (c, if g c = Cell.cnan then Cell.cnull else g c) := by
    simp [defensiveClean, List.map_map, Function.comp_def]
  have hkeys : ((expectedCols.map fun c =>
      (c, if g c = Cell.cnan then Cell.cnull else g c)).map Prod.fst) = expectedCols := by
    simp [List.map_map, Function.comp_def]
  rw [hclean, normalizeRecord_map_form _ (by rw [hkeys]; exact expectedCols_nodup)
    (by rw [hkeys]; exact expectedCols_lowerFixed)]
  simp [List.map_map, Function.comp_def]

/-- C10: every record handed to `supabase.table(...).insert` carries exactly
the thirteen canonical lower-case keys, in canonical order — columns of the
staged dataset outside this set are dropped before insertion; canonical
columns absent from the lower-cased, renamed staged input appear with value
`None`; and no value is ever a float NaN. -/
theorem insert_records_canonical (df : DFrame) (bsz : Nat)
    (hwf : ∀ r ∈ df.rows, r.map Prod.fst = df.cols) :
    (∀ b ∈ insertBatches df bsz, ∀ r ∈ b, r.map Prod.fst = expectedCols) ∧
    (∀ b ∈ insertBatches df bsz, ∀ r ∈ b, ∀ kv ∈ r, kv.2 ≠ Cell.cnan) ∧
    (∀ c ∈ expectedCols, c ∉ (renamedInput df).cols →
      ∀ b ∈ insertBatches df bsz, ∀ r ∈ b, lookupCell r c = Cell.cnull) := by
  have hunpack : ∀ b ∈ insertBatches df bsz, ∀ r ∈ b,
      ∃ r₆ ∈ (stagedPrepped df).rows,
        r = normalizeRecord (defensiveClean
          (expectedCols.map fun c => (c, lookupCell r₆ c))) := by
    intro b hb r hr
    simp only [insertBatches, List.mem_map] at hb
    obtain ⟨b₀, hb₀, rfl⟩ := hb
    simp only [prepBatch, normalizeRecordTypes, List.map_map, List.mem_map,
      Function.comp_def] at hr
    obtain ⟨r₀, hr₀, rfl⟩ := hr
    have hrows : r₀ ∈ (normalizeForInsert df).rows :=
      chunks_subset bsz _ b₀ hb₀ r₀ hr₀
    obtain ⟨r₆, hr₆, rfl⟩ := selectCols_rows expectedCols (stagedPrepped df) r₀ hrows
    exact ⟨r₆, hr₆, rfl⟩
  have hinv : ∀ c, c ∉ (renamedInput df).cols →
      ∀ r₆ ∈ (stagedPrepped df).rows, ∀ kv ∈ r₆, kv.1 = c → kv.2 = Cell.cnull := by
    intro c hcabs r₆ hr₆
    have hwf1 : ∀ r ∈ (renamedInput df).rows,
        r.map Prod.fst = (renamedInput df).cols := by
      unfold renamedInput
      exact renameCols_wf _ _ (renameCols_wf _ _ hwf)
    have hP3 : ∀ r₃ ∈ (mapCol "time" (fun v => isoApplyCell (toDatetimeCell v))
        (ensureCols (renamedInput df))).rows, ∀ kv ∈ r₃, kv.1 = c →
        (kv.2 = Cell.cnull ∨ kv.2 = Cell.cnan) := by
      intro r₃ hr₃ kv hkv hkc
      simp only [mapCol, List.mem_map] at hr₃
      obtain ⟨r₂, hr₂, rfl⟩ := hr₃
      obtain ⟨r₁, hr₁, cs', rfl⟩ :=
        foldl_addMissing_rows expectedCols (renamedInput df) r₂ hr₂
      simp only [List.mem_map] at hkv
      obtain ⟨kv₀, hkv₀, rfl⟩ := hkv
      have hk0 : kv₀.1 = c := by
        by_cases ht : kv₀.1 = "time"
        · simpa [ht] using hkc
        · simpa [ht] using hkc
      rcases List.mem_append.mp hkv₀ with hin | hin
      · exfalso
        have hmem : kv₀.1 ∈ r₁.map Prod.fst := List.mem_map_of_mem Prod.fst hin
        rw [hwf1 r₁ hr₁] at hmem
        exact hcabs (hk0 ▸ hmem)
      · simp only [List.mem_map] at hin
        obtain ⟨c', _, rfl⟩ := hin
        by_cases ht : c' = "time"
        · left
          simp [ht, isoApplyCell, toDatetimeCell]
        · left
          simp [ht]
    have hP5 := fold_mapCol_pres
      (fun r => ∀ kv ∈ r, kv.1 = c → (kv.2 = Cell.cnull ∨ kv.2 = Cell.cnan))
      (by
        intro col r hP kv hkv hkc
        simp only [List.mem_map] at hkv
        obtain ⟨kv₀, hkv₀, rfl⟩ := hkv
        by_cases hcol : kv₀.1 = col
        · have hkc' : kv₀.1 = c := by simpa [hcol] using hkc
          simp only [if_pos hcol]
          exact toNumeric_missing _ (hP kv₀ hkv₀ hkc')
        · have hkc' : kv₀.1 = c := by simpa [hcol] using hkc
          simp only [if_neg hcol]
          exact hP kv₀ hkv₀ hkc')
      numCols _ hP3
    obtain ⟨r₅, hr₅, rfl⟩ := mapCells_mem whereNotNullCell _ r₆ hr₆
    intro kv hkv hkc
    simp only [List.mem_map] at hkv
    obtain ⟨kv₀, hkv₀, rfl⟩ := hkv
    exact whereNotNull_missing _ (hP5 r₅ hr₅ kv₀ hkv₀ (by simpa using hkc))
  refine ⟨?_, ?_, ?_⟩
  · intro b hb r hr
    obtain ⟨r₆, hr₆, rfl⟩ := hunpack b hb r hr
    rw [normalizeRecord_clean_map]
    simp [List.map_map, Function.comp_def]
  · intro b hb r hr kv hkv
    obtain ⟨r₆, hr₆, rfl⟩ := hunpack b hb r hr
    rw [normalizeRecord_clean_map] at hkv
    simp only [List.mem_map] at hkv
    obtain ⟨c', hc', rfl⟩ := hkv
    show normalizeValue (if lookupCell r₆ c' = Cell.cnan then Cell.cnull
      else lookupCell r₆ c') ≠ Cell.cnan
    apply normalizeValue_ne_cnan
    by_cases h : lookupCell r₆ c' = Cell.cnan <;> simp [h]
  · intro c hc hcabs b hb r hr
    obtain ⟨r₆, hr₆, rfl⟩ := hunpack b hb r hr
    rw [normalizeRecord_clean_map]
    rw [lookupCell_map_self expectedCols _ c hc]
    have hnull : lookupCell r₆ c = Cell.cnull :=
      lookupCell_of_allNull r₆ c (hinv c hcabs r₆ hr₆)
    rw [hnull]
    rfl

/-- C10 witness: the theorem at a concrete staged frame with an extra
column, a NaN cell, and most canonical columns absent. -/
theorem insert_records_canonical_witness :
    (∀ r ∈ dfW.rows, r.map Prod.fst = dfW.cols) ∧
    ((∀ b ∈ insertBatches dfW 200, ∀ r ∈ b, r.map Prod.fst = expectedCols) ∧
     (∀ b ∈ insertBatches dfW 200, ∀ r ∈ b, ∀ kv ∈ r, kv.2 ≠ Cell.cnan) ∧
     (∀ c ∈ expectedCols, c ∉ (renamedInput dfW).cols →
       ∀ b ∈ insertBatches dfW 200, ∀ r ∈ b, lookupCell r c = Cell.cnull)) :=
  ⟨by decide, insert_records_canonical dfW 200 (by decide)⟩

end ETL
